import Mathlib

/-!
Verification development for the lecture-recording dashboard server
(`src/index.ts`).  The definitions below are a shallow embedding of the
parts of the server relevant to the upload engine, the media-analysis
pipeline, the ffmpeg semaphore, and the request-dedup map.  JS plain
objects/Maps are modelled as association lists, JS numbers as Nat/Int,
promises and the single-threaded event loop as explicit state passing,
and external effects (fetch responses, subprocess outcomes, clocks) as
explicit inputs.
-/

namespace Dashboard

/-! ### Association lists (JS objects / Maps) -/

/-- Lookup of a key in an association list (JS `obj[k]` / `map.get(k)`). -/
def alookup {κ α : Type} [DecidableEq κ] (k : κ) : List (κ × α) → Option α
  | [] => none
  | (k', v) :: rest => if k' = k then some v else alookup k rest

/-- Insert-or-overwrite (JS `obj[k] = v` / `map.set(k, v)`). -/
def aset {κ α : Type} [DecidableEq κ] (k : κ) (v : α) : List (κ × α) → List (κ × α)
  | [] => [(k, v)]
  | (k', v') :: rest => if k' = k then (k, v) :: rest else (k', v') :: aset k v rest

/-- Key removal (JS `delete obj[k]` / `map.delete(k)`).  Object keys are
unique, so removing every pair with the key is the same operation. -/
def aerase {κ α : Type} [DecidableEq κ] (k : κ) (l : List (κ × α)) : List (κ × α) :=
  l.filter (fun p => p.1 ≠ k)

theorem alookup_aset_self {κ α : Type} [DecidableEq κ] (k : κ) (v : α) (l : List (κ × α)) :
    alookup k (aset k v l) = some v := by
  induction l with
  | nil => simp [aset, alookup]
  | cons p rest ih =>
    by_cases h : p.1 = k
    · simp [aset, h, alookup]
    · simp [aset, h, alookup, ih]

theorem alookup_aerase_self {κ α : Type} [DecidableEq κ] (k : κ) (l : List (κ × α)) :
    alookup k (aerase k l) = none := by
  induction l with
  | nil => simp [aerase, alookup]
  | cons p rest ih =>
    by_cases h : p.1 = k
    · simpa [aerase, h] using ih
    · simpa [aerase, h, alookup] using ih

/-! ### FfmpegSemaphore (`index.ts` lines 89-138)

`running` is a JS number (modelled as `Int`); `queue` holds the queued
`resolve` callbacks in FIFO order (push at the tail, shift from the head),
modelled as waiter identifiers. -/

def MAX_CONCURRENT_FFMPEG : Int := 5

structure FfmpegSemaphore where
  running : Int
  queue : List Nat
  limit : Int
deriving Repr, DecidableEq

/-- `acquire()`: grant a slot immediately while under the limit, otherwise
enqueue the caller.  Returns whether the slot was granted at once. -/
def FfmpegSemaphore.acquire (s : FfmpegSemaphore) (w : Nat) : FfmpegSemaphore × Bool :=
  if s.running < s.limit then ({ s with running := s.running + 1 }, true)
  else ({ s with queue := s.queue ++ [w] }, false)

/-- `release()`: decrement `running`; if a waiter is queued, wake the oldest
(`queue.shift()`) and re-increment.  Returns the woken waiter, if any. -/
def FfmpegSemaphore.release (s : FfmpegSemaphore) : FfmpegSemaphore × Option Nat :=
  match s.queue with
  | [] => ({ s with running := s.running - 1 }, none)
  | w :: ws => ({ s with running := s.running - 1 + 1, queue := ws }, some w)

/-- `run(fn, description)`: `await acquire()`, run the operation, and in the
`finally` block release exactly once — both when the operation resolves and
when it throws.  The operation's outcome is an explicit input. -/
def FfmpegSemaphore.runScoped {T : Type} (s : FfmpegSemaphore) (w : Nat)
    (outcome : Except String T) : FfmpegSemaphore × Except String T :=
  let s1 := (s.acquire w).1
  match outcome with
  | .ok v => ((s1.release).1, .ok v)
  | .error e => ((s1.release).1, .error e)

inductive SemEvent
  | acq (w : Nat)
  | rel
deriving Repr, DecidableEq

def semStep (s : FfmpegSemaphore) : SemEvent → FfmpegSemaphore
  | .acq w => (s.acquire w).1
  | .rel => (s.release).1

def semRun (s : FfmpegSemaphore) (evs : List SemEvent) : FfmpegSemaphore :=
  evs.foldl semStep s

/-- `new FfmpegSemaphore(MAX_CONCURRENT_FFMPEG)` -/
def semInit : FfmpegSemaphore :=
  { running := 0, queue := [], limit := MAX_CONCURRENT_FFMPEG }

theorem semStep_preserves (s : FfmpegSemaphore) (ev : SemEvent)
    (h : s.running ≤ s.limit) :
    (semStep s ev).running ≤ (semStep s ev).limit ∧ (semStep s ev).limit = s.limit := by
  cases ev with
  | acq w =>
    simp only [semStep, FfmpegSemaphore.acquire]
    split <;> simp_all <;> omega
  | rel =>
    simp only [semStep, FfmpegSemaphore.release]
    cases hq : s.queue <;> simp_all <;> omega

theorem semRun_le_limit (evs : List SemEvent) (s : FfmpegSemaphore)
    (h : s.running ≤ s.limit) :
    (semRun s evs).running ≤ (semRun s evs).limit := by
  induction evs generalizing s with
  | nil => simpa [semRun]
  | cons ev rest ih =>
    have hstep := semStep_preserves s ev h
    simpa [semRun] using ih (semStep s ev) hstep.1

/-! ### In-flight dedup map (`processingVideos`, `index.ts` lines 160-164 and 1222-1315)

The `/api/video-metadata` handler checks `processingVideos.has(videoPath)`
and either awaits the stored promise or creates a new one and stores it;
there is no `await` between the check and the `set`, so on the JS event loop
the check-then-set is atomic with respect to other requests.  The promise's
`finally` removes the entry when the underlying computation settles.  We
model this as a trace machine: `arrive` is one request reaching the
check-then-set point, `settle` is the stored promise settling (success or
failure). -/

structure DedupState where
  processingVideos : List (String × Nat)
  nextComp : Nat
  started : Nat
  assigned : List (Nat × Nat)
deriving Repr, DecidableEq

inductive DedupEvent
  | arrive (reqId : Nat) (path : String)
  | settle (path : String)
deriving Repr, DecidableEq

def dedupStep (s : DedupState) : DedupEvent → DedupState
  | .arrive r p =>
    match alookup p s.processingVideos with
    | some c => { s with assigned := aset r c s.assigned }
    | none =>
      { s with
        processingVideos := aset p s.nextComp s.processingVideos,
        nextComp := s.nextComp + 1,
        started := s.started + 1,
        assigned := aset r s.nextComp s.assigned }
  | .settle p => { s with processingVideos := aerase p s.processingVideos }

def dedupInit : DedupState :=
  { processingVideos := [], nextComp := 0, started := 0, assigned := [] }

def dedupRun (evs : List DedupEvent) : DedupState :=
  evs.foldl dedupStep dedupInit

/-! ### Timebolt analysis with fingerprint cache (`analyzeVideo`, `index.ts` lines 961-1014)

The content fingerprint is `getFileHash`: xxHash3 of the first 300 bytes,
`null` when the file is unreadable — modelled as an opaque
`Option String` input.  `detectTimeboltBySilence` spawns exactly one
ffmpeg subprocess (through the semaphore); its boolean verdict and the
manual/filename short-circuits are explicit inputs.  The third component
of the result counts external subprocess invocations. -/

structure TimeboltEntry where
  isTimebolted : Bool
  method : String
  hash : String
deriving Repr, DecidableEq

structure TimeboltCache where
  results : List (String × TimeboltEntry)
deriving Repr, DecidableEq

structure AnalyzeResult where
  isTimebolted : Bool
  detectionMethod : String
deriving Repr, DecidableEq

def analyzeVideo (isManuallyMarked hasTimeboltedInName : Bool) (cache : TimeboltCache)
    (videoPath : String) (fileHash : Option String) (silenceSaysTimebolted : Bool) :
    AnalyzeResult × TimeboltCache × Nat :=
  if isManuallyMarked || hasTimeboltedInName then
    ({ isTimebolted := true,
       detectionMethod := if isManuallyMarked then "manual" else "filename" }, cache, 0)
  else
    let hit : Option TimeboltEntry :=
      match alookup videoPath cache.results, fileHash with
      | some e, some h => if e.hash = h then some e else none
      | _, _ => none
    match hit with
    | some e =>
      ({ isTimebolted := e.isTimebolted, detectionMethod := e.method ++ "-cached" }, cache, 0)
    | none =>
      let cache' : TimeboltCache :=
        match fileHash with
        | some h =>
          { results := aset videoPath
              { isTimebolted := silenceSaysTimebolted, method := "silence-analysis", hash := h }
              cache.results }
        | none => cache
      ({ isTimebolted := silenceSaysTimebolted, detectionMethod := "silence-analysis" },
       cache', 1)

/-! ### Timestamp extraction with cache (`extractTimestampFromVideo`, `index.ts` lines 629-958)

The body after the cache check can end four ways:
  * `ok d` — some candidate frame near the start produced a validated
    timestamp; duration and end timestamp are best-effort strings;
  * `noValidTimestamp` — every candidate frame failed OCR/validation; the
    function caches the null result ("even if null, to avoid reprocessing")
    and returns null;
  * `dimensionFailure` — ffprobe reported no usable width/height; the code
    returns null *before* reaching the cache write;
  * `fatalError` — an exception escaped to the outer catch, which returns
    null without writing the cache. -/

structure TimestampData where
  timestamp : String
  duration : String
  endTimestamp : String
deriving Repr, DecidableEq

structure TimestampEntry where
  timestamp : Option String
  duration : String
  endTimestamp : String
  hash : String
deriving Repr, DecidableEq

structure TimestampCache where
  results : List (String × TimestampEntry)
deriving Repr, DecidableEq

inductive TimestampRun
  | ok (d : TimestampData)
  | noValidTimestamp
  | dimensionFailure
  | fatalError
deriving Repr, DecidableEq

def extractTimestampBody (cache : TimestampCache) (videoPath : String)
    (fileHash : Option String) : TimestampRun → Option TimestampData × TimestampCache
  | .dimensionFailure => (none, cache)
  | .fatalError => (none, cache)
  | .noValidTimestamp =>
    let cache' : TimestampCache :=
      match fileHash with
      | some h =>
        { results := aset videoPath
            { timestamp := none, duration := "", endTimestamp := "", hash := h }
            cache.results }
      | none => cache
    (none, cache')
  | .ok d =>
    let cache' : TimestampCache :=
      match fileHash with
      | some h =>
        { results := aset videoPath
            { timestamp := some d.timestamp, duration := d.duration,
              endTimestamp := d.endTimestamp, hash := h }
            cache.results }
      | none => cache
    (some d, cache')

def extractTimestampFromVideo (cache : TimestampCache) (videoPath : String)
    (fileHash : Option String) (run : TimestampRun) :
    Option TimestampData × TimestampCache :=
  let hit : Option TimestampEntry :=
    match alookup videoPath cache.results, fileHash with
    | some e, some h => if e.hash = h then some e else none
    | _, _ => none
  match hit with
  | some e =>
    (match e.timestamp with
     | some t => some { timestamp := t, duration := e.duration, endTimestamp := e.endTimestamp }
     | none => none, cache)
  | none => extractTimestampBody cache videoPath fileHash run

/-! ### `/api/video-metadata` computation (`index.ts` lines 1222-1315)

The underlying computation behind the dedup map: check the
`video-metadata-cache.json` entry against the fresh fingerprint; on a miss
run `analyzeVideo`, then `extractTimestampFromVideo`, assemble `videoData`,
and cache it keyed by the fingerprint.  `recomputed` records whether the
analysis pipeline ran (false on a metadata-cache hit). -/

structure VideoData where
  isTimebolted : Bool
  detectionMethod : String
  recordingTime : Option String
  endTimestamp : String
  duration : String
  fileSizeBytes : Option Nat
deriving Repr, DecidableEq

structure MetadataEntry where
  hash : String
  data : VideoData
deriving Repr, DecidableEq

structure MetadataOutcome where
  data : VideoData
  metaCache : List (String × MetadataEntry)
  tbCache : TimeboltCache
  tsCache : TimestampCache
  recomputed : Bool
deriving Repr, DecidableEq

def videoMetadataCompute (metaCache : List (String × MetadataEntry))
    (tbCache : TimeboltCache) (tsCache : TimestampCache)
    (videoPath : String) (fileHash : Option String)
    (isManuallyMarked hasTimeboltedInName silenceSaysTimebolted : Bool)
    (tsRun : TimestampRun) (fileSizeBytes : Option Nat) : MetadataOutcome :=
  let hit : Option MetadataEntry :=
    match alookup videoPath metaCache, fileHash with
    | some e, some h => if e.hash = h then some e else none
    | _, _ => none
  match hit with
  | some e =>
    { data := e.data, metaCache := metaCache, tbCache := tbCache, tsCache := tsCache,
      recomputed := false }
  | none =>
    let a := analyzeVideo isManuallyMarked hasTimeboltedInName tbCache videoPath
      fileHash silenceSaysTimebolted
    let ts := extractTimestampFromVideo tsCache videoPath fileHash tsRun
    let videoData : VideoData :=
      { isTimebolted := a.1.isTimebolted,
        detectionMethod := a.1.detectionMethod,
        recordingTime := ts.1.map (·.timestamp),
        endTimestamp := (ts.1.map (·.endTimestamp)).getD "",
        duration := (ts.1.map (·.duration)).getD "",
        fileSizeBytes := fileSizeBytes }
    let metaCache' :=
      match fileHash with
      | some h => aset videoPath { hash := h, data := videoData } metaCache
      | none => metaCache
    { data := videoData, metaCache := metaCache', tbCache := a.2.1, tsCache := ts.2,
      recomputed := true }

/-! ### Upload engine data (`index.ts` lines 217-304)

`UploadProgress` is the in-memory entry of the `uploadProgress` map;
`InterruptedUpload` is the persisted record in `data/active-uploads.json`
(note: it has *no* status field).  Timestamps are model milliseconds. -/

inductive UStatus
  | uploading
  | complete
  | error
  | paused
deriving Repr, DecidableEq

structure UploadProgress where
  uploadId : String
  filename : String
  videoPath : String
  bytesUploaded : Nat
  bytesTotal : Nat
  percent : Nat
  status : UStatus
deriving Repr, DecidableEq

structure InterruptedUpload where
  videoPath : String
  uploadSessionUrl : String
  bytesUploaded : Nat
  bytesTotal : Nat
  studentGroup : String
  date : String
  interruptedAt : Nat
deriving Repr, DecidableEq

/-- `videoPath.split('/').pop() || ''` -/
def basename (p : String) : String := (p.splitOn "/").getLastD ""

/-- `Math.round((bytesUploaded / totalBytes) * 100)` for non-negative
operands: floor(100*b/total + 1/2). -/
def jsPercent (b total : Nat) : Nat := (200 * b + total) / (2 * total)

def CHUNK_SIZE : Nat := 5 * 1024 * 1024

def EMIT_INTERVAL_MS : Nat := 1000

/-- `bytes ${start}-${end - 1}/${totalBytes}` -/
def contentRange (start endByte totalBytes : Nat) : String :=
  "bytes " ++ toString start ++ "-" ++ toString (endByte - 1) ++ "/" ++ toString totalBytes

/-! ### The transfer loop (`performBackgroundUpload`, `index.ts` lines 307-492)

Per iteration the loop checks the cooperative pause flag
(`cancelledUploads.has(uploadId)`), slices the next `CHUNK_SIZE` bytes,
and PUTs them with a `Content-Range` header.  The response status and the
clock reading `Date.now()` are schedule inputs; an `AbortError`
(pause abort or the 10 s silence timeout) is caught and the loop retries,
any other exception propagates to the outer catch (status `error`,
session retained on disk).  After an accepted chunk the code
unconditionally advances `bytesUploaded`, then — throttled on
`percent !== lastEmittedPercent && now - lastEmitTime >= EMIT_INTERVAL_MS`
— updates/emits the in-memory progress *and* persists the session
snapshot; a 200/201 response then completes: progress
`complete`/`percent=100`, the persisted record deleted, and the matching
`lecture_recordings.json` entry marked uploaded. -/

structure UploadCtx where
  videoPath : String
  uploadUrl : String
  totalBytes : Nat
  uploadId : String
  studentGroup : String
  date : String
deriving Repr, DecidableEq

inductive ChunkOutcome
  | accepted (status : Nat) (now : Nat)
  | aborted
  | netError
deriving Repr, DecidableEq

structure LoopStep where
  pauseFlag : Bool
  outcome : ChunkOutcome
deriving Repr, DecidableEq

inductive LoopResult
  | completed
  | paused
  | errored
  | outOfSchedule
deriving Repr, DecidableEq

structure LoopState where
  bytesUploaded : Nat
  lastEmittedPercent : Int
  lastEmitTime : Nat
  progress : UploadProgress
  disk : Option InterruptedUpload
  issued : List (Nat × Nat)
  headers : List String
  events : List UploadProgress
  markedUploaded : Bool
deriving Repr, DecidableEq

/-- The outer catch of `performBackgroundUpload`: progress status `error`,
final emit, persisted record untouched. -/
def errorExit (st : LoopState) : LoopState :=
  let p := { st.progress with status := UStatus.error }
  { st with progress := p, events := st.events ++ [p] }

/-- The pause branch at the loop top: progress status `paused`, final emit,
persisted record untouched (kept for resume). -/
def pauseExit (st : LoopState) : LoopState :=
  let p := { st.progress with status := UStatus.paused }
  { st with progress := p, events := st.events ++ [p] }

/-- One chunk PUT being issued: records the `[start, end)` range and the
`Content-Range` header.  `bytesUploaded` is not advanced yet. -/
def issueChunk (ctx : UploadCtx) (st : LoopState) : LoopState :=
  let start := st.bytesUploaded
  let e := min (start + CHUNK_SIZE) ctx.totalBytes
  { st with
    issued := st.issued ++ [(start, e)]
    headers := st.headers ++ [contentRange start e ctx.totalBytes] }

/-- The code run after a chunk response arrives (any status): advance
`bytesUploaded` to the chunk end, then — throttled on a changed percent and
≥ 1 s since the last emit — update and emit the in-memory progress and
persist the session snapshot. -/
def acceptChunk (ctx : UploadCtx) (now : Nat) (st : LoopState) : LoopState :=
  let e := min (st.bytesUploaded + CHUNK_SIZE) ctx.totalBytes
  let pct := jsPercent e ctx.totalBytes
  let st2 := { st with bytesUploaded := e }
  if (pct : Int) ≠ st2.lastEmittedPercent ∧ EMIT_INTERVAL_MS ≤ now - st2.lastEmitTime then
    let p := { st2.progress with bytesUploaded := e, percent := pct }
    { st2 with
      progress := p
      events := st2.events ++ [p]
      lastEmittedPercent := (pct : Int)
      lastEmitTime := now
      disk := some { videoPath := ctx.videoPath, uploadSessionUrl := ctx.uploadUrl,
                     bytesUploaded := e, bytesTotal := ctx.totalBytes,
                     studentGroup := ctx.studentGroup, date := ctx.date,
                     interruptedAt := now } }
  else st2

/-- The 200/201 branch: final progress `complete`/`percent = 100`, final
emit, persisted record deleted, recording marked uploaded. -/
def completeExit (ctx : UploadCtx) (st : LoopState) : LoopState :=
  let p := { st.progress with
             status := UStatus.complete
             bytesUploaded := ctx.totalBytes
             percent := 100 }
  { st with
    progress := p
    events := st.events ++ [p]
    disk := none
    markedUploaded := true }

def runLoop (ctx : UploadCtx) : List LoopStep → LoopState → LoopState × LoopResult
  | [], st =>
    if st.bytesUploaded < ctx.totalBytes then (st, .outOfSchedule)
    else (errorExit st, .errored)
  | step :: rest, st =>
    if st.bytesUploaded < ctx.totalBytes then
      if step.pauseFlag then (pauseExit st, .paused)
      else
        let st1 := issueChunk ctx st
        match step.outcome with
        | .aborted => runLoop ctx rest st1
        | .netError => (errorExit st1, .errored)
        | .accepted status now =>
          let st3 := acceptChunk ctx now st1
          if status = 200 ∨ status = 201 then (completeExit ctx st3, .completed)
          else runLoop ctx rest st3
    else (errorExit st, .errored)

/-- The sequence of `[start, end)` chunk ranges the loop's arithmetic
produces from offset `b`: `start = bytesUploaded`,
`end = min(start + CHUNK_SIZE, totalBytes)`.  Fuel-indexed so it computes
by `rfl`/`decide`; the fuel only needs to dominate the chunk count. -/
def chunkListAux : Nat → Nat → Nat → List (Nat × Nat)
  | 0, _, _ => []
  | fuel + 1, totalBytes, b =>
    if b < totalBytes then
      (b, min (b + CHUNK_SIZE) totalBytes)
        :: chunkListAux fuel totalBytes (min (b + CHUNK_SIZE) totalBytes)
    else []

def chunkList (totalBytes b : Nat) : List (Nat × Nat) :=
  chunkListAux (totalBytes - b) totalBytes b

/-- A happy-path schedule: no pause requests, every chunk accepted, the
remote answering 308 until the final chunk and 200 on it, with clock
readings 2 s apart (beyond the 1 s throttle). -/
def happyStepsAux : Nat → Nat → Nat → Nat → List LoopStep
  | 0, _, _, _ => []
  | fuel + 1, totalBytes, b, t =>
    if b < totalBytes then
      { pauseFlag := false,
        outcome := .accepted (if min (b + CHUNK_SIZE) totalBytes = totalBytes then 200 else 308) t }
        :: happyStepsAux fuel totalBytes (min (b + CHUNK_SIZE) totalBytes) (t + 2000)
    else []

def happySteps (totalBytes b t : Nat) : List LoopStep :=
  happyStepsAux (totalBytes - b) totalBytes b t

/-- `l` is an exact, gapless, overlap-free tiling of the interval `[a, z)`
by nonempty `[start, end)` ranges in strictly increasing order. -/
inductive Tiles : Nat → Nat → List (Nat × Nat) → Prop
  | nil (a : Nat) : Tiles a a []
  | cons {a m z : Nat} {l : List (Nat × Nat)} (hlt : a < m) (h : Tiles m z l) :
      Tiles a z ((a, m) :: l)

/-! ### Completion effect on `lecture_recordings.json` (`index.ts` lines 440-446)

`recordings.find(r => r.date === date && r.studentGroup === studentGroup)`
followed by `recording.uploaded = true` on the found entry: only the first
entry matching both keys is mutated, and only its `uploaded` field.
`rest` stands for every other field of the JSON entry. -/

structure Recording where
  date : String
  studentGroup : String
  uploaded : Option Bool
  rest : String
deriving Repr, DecidableEq

def markUploaded : List Recording → String → String → List Recording
  | [], _, _ => []
  | r :: rs, date, group =>
    if r.date = date ∧ r.studentGroup = group then
      { r with uploaded := some true } :: rs
    else r :: markUploaded rs date group

/-! ### HTTP handlers for upload start / resume / pause

Server-side mutable state touched by the three routes: the in-memory
`uploadProgress` map (keyed by uploadId), the persisted
`data/active-uploads.json` map (keyed by videoPath), the `cancelledUploads`
pause-flag set, and — model bookkeeping — the list of
`performBackgroundUpload` transfer loops launched and not yet returned
(the handlers start loops without awaiting them). -/

structure ServerState where
  uploadProgress : List (String × UploadProgress)
  interrupted : List (String × InterruptedUpload)
  cancelledUploads : List String
  activeLoops : List String
deriving Repr, DecidableEq

inductive ApiResp
  | ok (uploadId : String)
  | okResume (uploadId : String) (resumedFrom : Nat)
  | okAlreadyComplete
  | okPaused
  | badRequest (error : String)
  | notFound (error : String)
  | sessionExpired (error : String)
  | serverError (error : String)
deriving Repr, DecidableEq

/-! #### `POST /api/upload` (`index.ts` lines 1903-2054)

Environment inputs stand for the filesystem, config files and the remote
initiate call: `fileExists` is `existsSync(videoPath)`,
`groupFromFilename` the regex match of a known study-group prefix,
`credsConfigured` the presence of `config/credentials.json` and
`config/token.json`, `tokenOk` whether `getAccessToken()` yielded a
token, `folderId` the `FOLDERS[studentGroup]` lookup, and `initLocation`
the `Location` header of the initiate response.  `freshId` is the
generated id used when the body carries none. -/

structure UploadRequestEnv where
  videoPath : Option String
  date : Option String
  uploadId : Option String
  freshId : String
  fileExists : Bool
  groupFromFilename : Option String
  credsConfigured : Bool
  tokenOk : Bool
  folderId : Option String
  initLocation : Option String
  totalBytes : Nat
  now : Nat
deriving Repr, DecidableEq

def handleUpload (st : ServerState) (r : UploadRequestEnv) : ApiResp × ServerState :=
  match r.videoPath, r.date with
  | some videoPath, some date =>
    let finalUploadId := r.uploadId.getD r.freshId
    if ¬ r.fileExists then (.notFound "Video file not found", st)
    else
      match r.groupFromFilename with
      | none => (.badRequest "Unable to determine student group from filename", st)
      | some studentGroup =>
        if ¬ r.credsConfigured then
          (.badRequest "Google Drive not configured. Please run sync first.", st)
        else
          match r.folderId with
          | none => (.badRequest ("Unknown student group: " ++ studentGroup), st)
          | some _ =>
            let prog : UploadProgress :=
              { uploadId := finalUploadId, filename := basename videoPath,
                videoPath := videoPath, bytesUploaded := 0, bytesTotal := r.totalBytes,
                percent := 0, status := .uploading }
            let st1 := { st with uploadProgress := aset finalUploadId prog st.uploadProgress }
            if ¬ r.tokenOk then (.serverError "Failed to get access token", st1)
            else
              match r.initLocation with
              | none => (.serverError "Failed to get upload URL", st1)
              | some uploadUrl =>
                let st2 := { st1 with
                  interrupted := aset videoPath
                    { videoPath := videoPath, uploadSessionUrl := uploadUrl,
                      bytesUploaded := 0, bytesTotal := r.totalBytes,
                      studentGroup := studentGroup, date := date,
                      interruptedAt := r.now } st1.interrupted }
                let st3 := { st2 with activeLoops := st2.activeLoops ++ [videoPath] }
                (.ok finalUploadId, st3)
  | _, _ => (.badRequest "Missing required parameters", st)

/-! #### `POST /api/resume-upload` (`index.ts` lines 1364-1551)

`probeStatus` is the HTTP status of the zero-length
`Content-Range: bytes */{total}` probe; `probeRange` is the value `n`
captured by `/bytes=0-(\d+)/` from its `Range` header, `none` when the
header is missing or unparsable. -/

structure ResumeRequestEnv where
  videoPath : Option String
  uploadId : Option String
  freshId : String
  credsConfigured : Bool
  tokenOk : Bool
  probeStatus : Nat
  probeRange : Option Nat
deriving Repr, DecidableEq

def handleResume (st : ServerState) (r : ResumeRequestEnv) : ApiResp × ServerState :=
  match r.videoPath with
  | none => (.badRequest "Missing videoPath", st)
  | some videoPath =>
    let finalUploadId := r.uploadId.getD r.freshId
    match alookup videoPath st.interrupted with
    | none => (.notFound "No interrupted upload found for this video", st)
    | some u =>
      if ¬ r.credsConfigured then
        (.badRequest "Google Drive not configured. Please run sync first.", st)
      else if ¬ r.tokenOk then (.serverError "Failed to get access token", st)
      else
        let prog : UploadProgress :=
          { uploadId := finalUploadId, filename := basename videoPath,
            videoPath := videoPath, bytesUploaded := u.bytesUploaded,
            bytesTotal := u.bytesTotal,
            percent := jsPercent u.bytesUploaded u.bytesTotal, status := .uploading }
        let st1 := { st with uploadProgress := aset finalUploadId prog st.uploadProgress }
        if r.probeStatus = 404 ∨ r.probeStatus = 410 then
          (.sessionExpired "Upload session expired. Google Drive resumable upload sessions expire after ~7 days. Please start a new upload.",
           { st1 with interrupted := aerase videoPath st1.interrupted })
        else
          let actualBytesUploaded :=
            if r.probeStatus = 308 then
              match r.probeRange with
              | some n => n + 1
              | none => u.bytesUploaded
            else u.bytesUploaded
          if r.probeStatus = 200 ∨ r.probeStatus = 201 then
            let prog2 := { prog with status := UStatus.complete, percent := 100 }
            (.okAlreadyComplete,
             { st1 with
               uploadProgress := aset finalUploadId prog2 st1.uploadProgress
               interrupted := aerase videoPath st1.interrupted })
          else
            (.okResume finalUploadId actualBytesUploaded,
             { st1 with activeLoops := st1.activeLoops ++ [videoPath] })

/-! #### `POST /api/pause-upload` (`index.ts` lines 2057-2108)

Scans `uploadProgress` for the first entry with the requested `videoPath`,
adds its uploadId to `cancelledUploads`, and aborts the in-flight chunk
request; the persisted record is deliberately kept. -/

def findUploadId (videoPath : String) : List (String × UploadProgress) → Option String
  | [] => none
  | (id, p) :: rest => if p.videoPath = videoPath then some id else findUploadId videoPath rest

def handlePause (st : ServerState) (videoPath : Option String) : ApiResp × ServerState :=
  match videoPath with
  | none => (.badRequest "Missing videoPath parameter", st)
  | some vp =>
    match findUploadId vp st.uploadProgress with
    | none => (.notFound "No active upload found for this video", st)
    | some uploadId =>
      (.okPaused, { st with cancelledUploads := st.cancelledUploads ++ [uploadId] })

/-! ## Lemmas about the chunk arithmetic and the happy-path transfer loop -/

theorem chunkListAux_of_ge (fuel totalBytes b : Nat) (h : totalBytes ≤ b) :
    chunkListAux fuel totalBytes b = [] := by
  cases fuel with
  | zero => rfl
  | succ n => simp [chunkListAux, Nat.not_lt.mpr h]

theorem chunkListAux_tiles (fuel : Nat) :
    ∀ (totalBytes b : Nat), totalBytes - b ≤ fuel → b ≤ totalBytes →
      Tiles b totalBytes (chunkListAux fuel totalBytes b) := by
  induction fuel with
  | zero =>
    intro total b hf hb
    have hb' : b = total := by omega
    subst hb'
    simpa [chunkListAux] using Tiles.nil b
  | succ n ih =>
    intro total b hf hb
    by_cases hlt : b < total
    · have hC : 0 < CHUNK_SIZE := by norm_num [CHUNK_SIZE]
      rw [chunkListAux]
      simp only [hlt, if_true]
      exact Tiles.cons (by omega) (ih total _ (by omega) (by omega))
    · have hb' : b = total := by omega
      subst hb'
      simpa [chunkListAux, hlt] using Tiles.nil b

theorem chunkListAux_length (fuel : Nat) :
    ∀ (totalBytes b : Nat), totalBytes - b ≤ fuel →
      (chunkListAux fuel totalBytes b).length =
        (totalBytes - b + CHUNK_SIZE - 1) / CHUNK_SIZE := by
  induction fuel with
  | zero =>
    intro total b hf
    simp only [chunkListAux, List.length_nil, CHUNK_SIZE]
    omega
  | succ n ih =>
    intro total b hf
    by_cases hlt : b < total
    · have hC : 0 < CHUNK_SIZE := by norm_num [CHUNK_SIZE]
      rw [chunkListAux]
      simp only [hlt, if_true, List.length_cons]
      rw [ih total _ (by omega)]
      simp only [CHUNK_SIZE] at *
      omega
    · rw [chunkListAux]
      simp only [hlt, if_false, List.length_nil, CHUNK_SIZE]
      omega

theorem chunkListAux_width (fuel : Nat) :
    ∀ (totalBytes b : Nat), ∀ p ∈ chunkListAux fuel totalBytes b,
      p.2 = min (p.1 + CHUNK_SIZE) totalBytes := by
  induction fuel with
  | zero => intro total b p hp; simp [chunkListAux] at hp
  | succ n ih =>
    intro total b p hp
    rw [chunkListAux] at hp
    by_cases hlt : b < total
    · simp only [hlt, if_true, List.mem_cons] at hp
      rcases hp with h | h
      · subst h; rfl
      · exact ih total _ p h
    · simp [hlt] at hp

theorem issueChunk_bytesUploaded (ctx : UploadCtx) (st : LoopState) :
    (issueChunk ctx st).bytesUploaded = st.bytesUploaded := rfl

theorem issueChunk_issued (ctx : UploadCtx) (st : LoopState) :
    (issueChunk ctx st).issued =
      st.issued ++ [(st.bytesUploaded, min (st.bytesUploaded + CHUNK_SIZE) ctx.totalBytes)] :=
  rfl

theorem issueChunk_headers (ctx : UploadCtx) (st : LoopState) :
    (issueChunk ctx st).headers =
      st.headers ++ [contentRange st.bytesUploaded
        (min (st.bytesUploaded + CHUNK_SIZE) ctx.totalBytes) ctx.totalBytes] :=
  rfl

theorem issueChunk_progress (ctx : UploadCtx) (st : LoopState) :
    (issueChunk ctx st).progress = st.progress := rfl

theorem acceptChunk_bytesUploaded (ctx : UploadCtx) (now : Nat) (st : LoopState) :
    (acceptChunk ctx now st).bytesUploaded =
      min (st.bytesUploaded + CHUNK_SIZE) ctx.totalBytes := by
  simp only [acceptChunk]
  split <;> rfl

theorem acceptChunk_issued (ctx : UploadCtx) (now : Nat) (st : LoopState) :
    (acceptChunk ctx now st).issued = st.issued := by
  simp only [acceptChunk]
  split <;> rfl

theorem acceptChunk_headers (ctx : UploadCtx) (now : Nat) (st : LoopState) :
    (acceptChunk ctx now st).headers = st.headers := by
  simp only [acceptChunk]
  split <;> rfl

theorem acceptChunk_uploadId (ctx : UploadCtx) (now : Nat) (st : LoopState) :
    (acceptChunk ctx now st).progress.uploadId = st.progress.uploadId := by
  simp only [acceptChunk]
  split <;> rfl

theorem acceptChunk_videoPath (ctx : UploadCtx) (now : Nat) (st : LoopState) :
    (acceptChunk ctx now st).progress.videoPath = st.progress.videoPath := by
  simp only [acceptChunk]
  split <;> rfl

theorem acceptChunk_bytesTotal (ctx : UploadCtx) (now : Nat) (st : LoopState) :
    (acceptChunk ctx now st).progress.bytesTotal = st.progress.bytesTotal := by
  simp only [acceptChunk]
  split <;> rfl

/-- Running the transfer loop on a happy-path schedule: it issues exactly
the chunk ranges (and `Content-Range` headers) computed by `chunkListAux`,
ends `completed`, with terminal in-memory progress
`complete`/`percent = 100`, the persisted record deleted, and the
matching recording marked uploaded. -/
theorem runLoop_happyAux (fuel : Nat) :
    ∀ (ctx : UploadCtx) (t : Nat) (st : LoopState),
      st.bytesUploaded < ctx.totalBytes → ctx.totalBytes - st.bytesUploaded ≤ fuel →
      ∃ st', runLoop ctx (happyStepsAux fuel ctx.totalBytes st.bytesUploaded t) st =
          (st', .completed) ∧
        st'.issued = st.issued ++ chunkListAux fuel ctx.totalBytes st.bytesUploaded ∧
        st'.headers = st.headers ++ (chunkListAux fuel ctx.totalBytes st.bytesUploaded).map
          (fun p => contentRange p.1 p.2 ctx.totalBytes) ∧
        st'.progress.status = .complete ∧ st'.progress.percent = 100 ∧
        st'.progress.bytesUploaded = ctx.totalBytes ∧
        st'.progress.bytesTotal = st.progress.bytesTotal ∧
        st'.progress.uploadId = st.progress.uploadId ∧
        st'.progress.videoPath = st.progress.videoPath ∧
        st'.disk = none ∧ st'.markedUploaded = true := by
  induction fuel with
  | zero => intro ctx t st hlt hf; omega
  | succ n ih =>
    intro ctx t st hlt hf
    have hC : 0 < CHUNK_SIZE := by norm_num [CHUNK_SIZE]
    rw [happyStepsAux, chunkListAux]
    simp only [hlt, if_true]
    rw [runLoop]
    simp only [hlt, if_true, Bool.false_eq_true, ite_false]
    by_cases he : min (st.bytesUploaded + CHUNK_SIZE) ctx.totalBytes = ctx.totalBytes
    · -- final chunk: response 200 completes the upload
      simp only [he, if_true]
      rw [if_pos (Or.inl trivial)]
      refine ⟨_, rfl, ?_⟩
      rw [chunkListAux_of_ge n ctx.totalBytes ctx.totalBytes le_rfl]
      simp [completeExit, acceptChunk_issued, acceptChunk_headers, acceptChunk_uploadId,
        acceptChunk_videoPath, acceptChunk_bytesTotal, issueChunk_issued, issueChunk_headers,
        issueChunk_progress, he]
    · -- intermediate chunk: response 308, the loop continues
      have hel : min (st.bytesUploaded + CHUNK_SIZE) ctx.totalBytes < ctx.totalBytes := by
        omega
      simp only [he, if_false]
      have h308 : ¬ ((308 : Nat) = 200 ∨ (308 : Nat) = 201) := by omega
      rw [if_neg h308]
      have hb3 : (acceptChunk ctx t (issueChunk ctx st)).bytesUploaded =
          min (st.bytesUploaded + CHUNK_SIZE) ctx.totalBytes := by
        rw [acceptChunk_bytesUploaded, issueChunk_bytesUploaded]
      obtain ⟨st', hrun, hi, hh, hst, hpc, hbu, hbt, hui, hvp, hdk, hmk⟩ :=
        ih ctx (t + 2000) (acceptChunk ctx t (issueChunk ctx st))
          (by rw [hb3]; exact hel) (by rw [hb3]; omega)
      rw [hb3] at hrun hi hh
      refine ⟨st', hrun, ?_, ?_, hst, hpc, hbu, ?_, ?_, ?_, hdk, hmk⟩
      · rw [hi, acceptChunk_issued, issueChunk_issued, List.append_assoc]
        rfl
      · rw [hh, acceptChunk_headers, issueChunk_headers, List.append_assoc]
        rfl
      · rw [hbt, acceptChunk_bytesTotal, issueChunk_progress]
      · rw [hui, acceptChunk_uploadId, issueChunk_progress]
      · rw [hvp, acceptChunk_videoPath, issueChunk_progress]

/-! ## Further helper lemmas -/

theorem semStep_limit (s : FfmpegSemaphore) (ev : SemEvent) :
    (semStep s ev).limit = s.limit := by
  cases ev with
  | acq w =>
    simp only [semStep, FfmpegSemaphore.acquire]
    split <;> rfl
  | rel =>
    simp only [semStep, FfmpegSemaphore.release]
    cases s.queue <;> rfl

theorem semRun_limit (evs : List SemEvent) (s : FfmpegSemaphore) :
    (semRun s evs).limit = s.limit := by
  induction evs generalizing s with
  | nil => rfl
  | cons ev rest ih => simpa [semRun] using (ih (semStep s ev)).trans (semStep_limit s ev)

theorem mem_keys_aset {κ α : Type} [DecidableEq κ] (k : κ) (v : α) (l : List (κ × α)) (x : κ) :
    x ∈ (aset k v l).map Prod.fst ↔ x = k ∨ x ∈ l.map Prod.fst := by
  induction l with
  | nil => simp [aset]
  | cons p rest ih =>
    obtain ⟨k', v'⟩ := p
    by_cases h : k' = k
    · subst h
      simp [aset]
    · simp [aset, h, ih] <;> tauto

theorem keys_nodup_aset {κ α : Type} [DecidableEq κ] (k : κ) (v : α) (l : List (κ × α))
    (h : (l.map Prod.fst).Nodup) : ((aset k v l).map Prod.fst).Nodup := by
  induction l with
  | nil => simp [aset]
  | cons p rest ih =>
    obtain ⟨k', v'⟩ := p
    simp only [List.map_cons, List.nodup_cons] at h
    by_cases hk : k' = k
    · subst hk
      simpa [aset] using h
    · simp only [aset, hk, if_false, List.map_cons, List.nodup_cons]
      refine ⟨?_, ih h.2⟩
      intro hmem
      rcases (mem_keys_aset k v rest k').mp hmem with h1 | h1
      · exact hk h1
      · exact h.1 h1

theorem keys_nodup_aerase {κ α : Type} [DecidableEq κ] (k : κ) (l : List (κ × α))
    (h : (l.map Prod.fst).Nodup) : ((aerase k l).map Prod.fst).Nodup := by
  have hs : List.Sublist (aerase k l) l := List.filter_sublist l
  exact (hs.map Prod.fst).nodup h

theorem dedupStep_keys_nodup (s : DedupState) (ev : DedupEvent)
    (h : (s.processingVideos.map Prod.fst).Nodup) :
    ((dedupStep s ev).processingVideos.map Prod.fst).Nodup := by
  cases ev with
  | arrive r p =>
    simp only [dedupStep]
    cases alookup p s.processingVideos with
    | some c => exact h
    | none => exact keys_nodup_aset p s.nextComp s.processingVideos h
  | settle p => exact keys_nodup_aerase p s.processingVideos h

theorem dedupFold_keys_nodup (evs : List DedupEvent) :
    ∀ s : DedupState, (s.processingVideos.map Prod.fst).Nodup →
      (((evs.foldl dedupStep s).processingVideos.map Prod.fst)).Nodup := by
  induction evs with
  | nil => intro s h; exact h
  | cons ev rest ih =>
    intro s h
    exact ih (dedupStep s ev) (dedupStep_keys_nodup s ev h)

/-! ## Claim theorems -/

/-- C7: the ffmpeg semaphore never has `running` above its capacity on any
event trace from the initial state; `release()` wakes the oldest queued
waiter (FIFO head); and `run` performs, for a resolving and for a throwing
operation alike, exactly one `acquire` followed by exactly one `release`
(in particular, with no waiters queued, `running` returns to its
pre-`run` value), so a failing operation cannot leak a slot. -/
theorem semaphore_bounded_fifo_release_once :
    (∀ evs : List SemEvent, (semRun semInit evs).running ≤ MAX_CONCURRENT_FFMPEG) ∧
    (∀ s : FfmpegSemaphore, (s.release).2 = s.queue.head?) ∧
    (∀ (s : FfmpegSemaphore) (w : Nat) (o : Except String Nat),
      (s.runScoped w o).2 = o ∧ (s.runScoped w o).1 = (((s.acquire w).1).release).1) ∧
    (∀ (s : FfmpegSemaphore) (w : Nat) (o : Except String Nat),
      s.queue = [] → ((s.runScoped w o).1).running = s.running) := by
  refine ⟨?_, ?_, ?_, ?_⟩
  · intro evs
    have h := semRun_le_limit evs semInit (by norm_num [semInit, MAX_CONCURRENT_FFMPEG])
    rwa [semRun_limit] at h
  · intro s
    cases hq : s.queue <;> simp [FfmpegSemaphore.release, hq]
  · intro s w o
    cases o <;> exact ⟨rfl, rfl⟩
  · intro s w o hq
    have hcases : ∀ T : Type, ∀ x : T,
        ((((s.acquire w).1).release).1).running = s.running := by
      intro T x
      simp only [FfmpegSemaphore.acquire]
      split <;> simp [FfmpegSemaphore.release, hq]
    cases o with
    | ok v => simpa [FfmpegSemaphore.runScoped] using hcases Nat 0
    | error e => simpa [FfmpegSemaphore.runScoped] using hcases Nat 0

/-- Witness for C7 at concrete inputs: a `run` whose operation throws,
started on an idle semaphore, leaves `running` unchanged at 2. -/
theorem semaphore_bounded_fifo_release_once_witness :
    ((({ running := 2, queue := [], limit := 5 } : FfmpegSemaphore).runScoped 3
        (Except.error "spawn failed" : Except String Nat)).1).running = 2 :=
  semaphore_bounded_fifo_release_once.2.2.2
    { running := 2, queue := [], limit := 5 } 3 (Except.error "spawn failed") rfl

/-- C6: with two requests arriving for the same uncached `videoPath` while
the first is still in flight, only one underlying analysis starts and both
requests are assigned the result of that same computation; the in-flight
entry is removed when the computation settles; an arrival for a path
already in flight never starts a new analysis; and the in-flight map never
holds two entries for one path. -/
theorem dedup_single_analysis :
    (let s := dedupRun [DedupEvent.arrive 1 "v", DedupEvent.arrive 2 "v", DedupEvent.settle "v"]
     s.started = 1 ∧ alookup 1 s.assigned = some 0 ∧ alookup 2 s.assigned = some 0 ∧
       alookup "v" s.processingVideos = none) ∧
    (∀ (s : DedupState) (rid : Nat) (p : String) (c : Nat),
      alookup p s.processingVideos = some c →
        (dedupStep s (.arrive rid p)).started = s.started ∧
        (dedupStep s (.arrive rid p)).processingVideos = s.processingVideos ∧
        alookup rid (dedupStep s (.arrive rid p)).assigned = some c) ∧
    (∀ evs : List DedupEvent, ((dedupRun evs).processingVideos.map Prod.fst).Nodup) := by
  refine ⟨?_, ?_, ?_⟩
  · exact ⟨rfl, rfl, rfl, rfl⟩
  · intro s rid p c h
    simp [dedupStep, h, alookup_aset_self]
  · intro evs
    exact dedupFold_keys_nodup evs dedupInit (by simp [dedupInit])

def c6State : DedupState :=
  { processingVideos := [("w", 7)], nextComp := 8, started := 3, assigned := [] }

/-- Witness for C6 at a concrete in-flight state: an arrival for a path
already being processed starts nothing new and attaches to computation 7. -/
theorem dedup_single_analysis_witness :
    (dedupStep c6State (.arrive 5 "w")).started = 3 ∧
    (dedupStep c6State (.arrive 5 "w")).processingVideos = [("w", 7)] ∧
    alookup 5 (dedupStep c6State (.arrive 5 "w")).assigned = some 7 :=
  dedup_single_analysis.2.1 c6State 5 "w" 7 rfl

/-- C5: with the manual and filename short-circuits negative and a
readable fingerprint, a first analysis runs one subprocess and stores the
fingerprint; a second call with the unchanged fingerprint is a cache hit —
zero subprocess invocations, cache untouched, cached verdict returned
(method tagged `-cached`); a call with a different fingerprint re-runs the
analysis (one subprocess) and overwrites the stored fingerprint. -/
theorem fingerprint_cache_hit_and_invalidation
    (cache : TimeboltCache) (videoPath : String) (h h' : String)
    (s1 s2 s3 : Bool) (hne : h' ≠ h)
    (hmiss : ∀ e, alookup videoPath cache.results = some e → e.hash ≠ h) :
    let first := analyzeVideo false false cache videoPath (some h) s1
    let second := analyzeVideo false false first.2.1 videoPath (some h) s2
    let third := analyzeVideo false false first.2.1 videoPath (some h') s3
    first.2.2 = 1 ∧
    alookup videoPath first.2.1.results =
      some { isTimebolted := s1, method := "silence-analysis", hash := h } ∧
    second.2.2 = 0 ∧ second.2.1 = first.2.1 ∧
    second.1 = { isTimebolted := s1, detectionMethod := "silence-analysis-cached" } ∧
    third.2.2 = 1 ∧
    alookup videoPath third.2.1.results =
      some { isTimebolted := s3, method := "silence-analysis", hash := h' } := by
  intro first second third
  have hfirst : first =
      ({ isTimebolted := s1, detectionMethod := "silence-analysis" },
       { results := aset videoPath
           { isTimebolted := s1, method := "silence-analysis", hash := h } cache.results },
       1) := by
    unfold_let first
    unfold analyzeVideo
    cases halo : alookup videoPath cache.results with
    | none => simp [halo]
    | some e => simp [halo, hmiss e halo]
  have hsecond : second.2.2 = 0 ∧ second.2.1 = first.2.1 ∧
      second.1 = { isTimebolted := s1, detectionMethod := "silence-analysis-cached" } := by
    unfold_let second
    rw [hfirst]
    unfold analyzeVideo
    simp [alookup_aset_self]
  have hthird : third.2.2 = 1 ∧
      alookup videoPath third.2.1.results =
        some { isTimebolted := s3, method := "silence-analysis", hash := h' } := by
    unfold_let third
    rw [hfirst]
    unfold analyzeVideo
    simp [alookup_aset_self, hne, Ne.symm hne, alookup_aset_self]
  refine ⟨?_, ?_, hsecond.1, hsecond.2.1, hsecond.2.2, hthird.1, hthird.2⟩
  · rw [hfirst]
  · rw [hfirst]
    exact alookup_aset_self _ _ _

/-- Witness for C5 at concrete inputs: empty cache, path `v`, fingerprint
`f1` then `f2`. -/
theorem fingerprint_cache_hit_and_invalidation_witness :
    let first := analyzeVideo false false { results := [] } "v" (some "f1") true
    let second := analyzeVideo false false first.2.1 "v" (some "f1") false
    let third := analyzeVideo false false first.2.1 "v" (some "f2") false
    first.2.2 = 1 ∧
    alookup "v" first.2.1.results =
      some { isTimebolted := true, method := "silence-analysis", hash := "f1" } ∧
    second.2.2 = 0 ∧ second.2.1 = first.2.1 ∧
    second.1 = { isTimebolted := true, detectionMethod := "silence-analysis-cached" } ∧
    third.2.2 = 1 ∧
    alookup "v" third.2.1.results =
      some { isTimebolted := false, method := "silence-analysis", hash := "f2" } :=
  fingerprint_cache_hit_and_invalidation { results := [] } "v" "f1" "f2" true false false
    (by decide) (by intro e he; simp [alookup] at he)

/-- C10: completing an upload rewrites `lecture_recordings.json` so that
either no entry matches the upload's date and student group and the list
is written back unchanged, or the list decomposes as
`pre ++ [r] ++ post` with `r` the first entry matching both keys, and the
write-back is `pre ++ [r with uploaded := true] ++ post`: every other
entry, and every other field of `r`, is unchanged. -/
theorem upload_complete_marks_single_recording (rs : List Recording) (d g : String) :
    (markUploaded rs d g = rs ∧ ∀ r ∈ rs, ¬(r.date = d ∧ r.studentGroup = g)) ∨
    (∃ pre r post,
      rs = pre ++ r :: post ∧
      markUploaded rs d g = pre ++ { r with uploaded := some true } :: post ∧
      r.date = d ∧ r.studentGroup = g ∧
      ∀ r' ∈ pre, ¬(r'.date = d ∧ r'.studentGroup = g)) := by
  induction rs with
  | nil => exact Or.inl ⟨rfl, by simp⟩
  | cons r rs ih =>
    by_cases h : r.date = d ∧ r.studentGroup = g
    · refine Or.inr ⟨[], r, rs, rfl, ?_, h.1, h.2, by simp⟩
      simp [markUploaded, h]
    · rcases ih with ⟨heq, hall⟩ | ⟨pre, x, post, hrs, hmk, hd, hg, hpre⟩
      · refine Or.inl ⟨by simp [markUploaded, h, heq], ?_⟩
        intro r' hr'
        rcases List.mem_cons.mp hr' with rfl | hr'
        · exact h
        · exact hall r' hr'
      · refine Or.inr ⟨r :: pre, x, post, by simp [hrs], ?_, hd, hg, ?_⟩
        · simp [markUploaded, h, hmk]
        · intro r' hr'
          rcases List.mem_cons.mp hr' with rfl | hr'
          · exact h
          · exact hpre r' hr'

def c10Recs : List Recording :=
  [ { date := "2025-01-10", studentGroup := "ta23", uploaded := none, rest := "videos-a" },
    { date := "2025-01-10", studentGroup := "tvm24", uploaded := some false, rest := "videos-b" },
    { date := "2025-01-11", studentGroup := "tvm24", uploaded := none, rest := "videos-c" } ]

/-- Witness for C10 on a concrete recordings list: exactly the entry with
matching date and group gets `uploaded := true`, all else byte-identical. -/
theorem upload_complete_marks_single_recording_witness :
    ((markUploaded c10Recs "2025-01-10" "tvm24" = c10Recs ∧
      ∀ r ∈ c10Recs, ¬(r.date = "2025-01-10" ∧ r.studentGroup = "tvm24")) ∨
     (∃ pre r post,
       c10Recs = pre ++ r :: post ∧
       markUploaded c10Recs "2025-01-10" "tvm24" =
         pre ++ { r with uploaded := some true } :: post ∧
       r.date = "2025-01-10" ∧ r.studentGroup = "tvm24" ∧
       ∀ r' ∈ pre, ¬(r'.date = "2025-01-10" ∧ r'.studentGroup = "tvm24"))) ∧
    markUploaded c10Recs "2025-01-10" "tvm24" =
      [ { date := "2025-01-10", studentGroup := "ta23", uploaded := none, rest := "videos-a" },
        { date := "2025-01-10", studentGroup := "tvm24", uploaded := some true,
          rest := "videos-b" },
        { date := "2025-01-11", studentGroup := "tvm24", uploaded := none,
          rest := "videos-c" } ] :=
  ⟨upload_complete_marks_single_recording c10Recs "2025-01-10" "tvm24", by decide⟩

/-- C1: for a resource of `totalBytes > 0` bytes uploaded with the fixed
5,242,880-byte chunk size, the happy-path transfer loop (no pause, every
chunk accepted, 308 until the final chunk's 200) issues exactly
⌈totalBytes / CHUNK_SIZE⌉ chunk requests; their `[start, end)` ranges
exactly tile `[0, totalBytes)` in strictly increasing order with no gaps
or overlaps, each request carries the header
`bytes {start}-{end-1}/{totalBytes}`, each end is
`min(start + CHUNK_SIZE, totalBytes)`, and the terminal progress has
status `complete` with `percent = 100` and the persisted session
deleted. -/
theorem upload_chunks_tile_and_complete (ctx : UploadCtx) (t : Nat) (st : LoopState)
    (hb : st.bytesUploaded = 0) (hiss : st.issued = []) (hhd : st.headers = [])
    (hpos : 0 < ctx.totalBytes) :
    ∃ st', runLoop ctx (happySteps ctx.totalBytes 0 t) st = (st', .completed) ∧
      st'.issued = chunkList ctx.totalBytes 0 ∧
      st'.issued.length = (ctx.totalBytes + CHUNK_SIZE - 1) / CHUNK_SIZE ∧
      Tiles 0 ctx.totalBytes st'.issued ∧
      (∀ p ∈ st'.issued, p.2 = min (p.1 + CHUNK_SIZE) ctx.totalBytes) ∧
      st'.headers = st'.issued.map (fun p => contentRange p.1 p.2 ctx.totalBytes) ∧
      st'.progress.status = .complete ∧ st'.progress.percent = 100 ∧
      st'.progress.bytesUploaded = ctx.totalBytes ∧ st'.disk = none := by
  have h1 : st.bytesUploaded < ctx.totalBytes := by rw [hb]; exact hpos
  have h2 : ctx.totalBytes - st.bytesUploaded ≤ ctx.totalBytes - 0 := by rw [hb]
  obtain ⟨st', hrun, hi, hh, hst, hpc, hbu, hbt, hui, hvp, hdk, hmk⟩ :=
    runLoop_happyAux (ctx.totalBytes - 0) ctx t st h1 h2
  rw [hb] at hrun hi hh
  refine ⟨st', hrun, ?_, ?_, ?_, ?_, ?_, hst, hpc, hbu, hdk⟩
  · rw [hi, hiss]
    rfl
  · rw [hi, hiss, List.nil_append]
    simpa using chunkListAux_length (ctx.totalBytes - 0) ctx.totalBytes 0 le_rfl
  · rw [hi, hiss, List.nil_append]
    exact chunkListAux_tiles (ctx.totalBytes - 0) ctx.totalBytes 0 le_rfl (Nat.zero_le _)
  · rw [hi, hiss, List.nil_append]
    exact chunkListAux_width (ctx.totalBytes - 0) ctx.totalBytes 0
  · rw [hh, hhd, hi, hiss, List.nil_append, List.nil_append]

def c1Ctx : UploadCtx :=
  { videoPath := "videos/tvm24 - 2025-01-10.mp4",
    uploadUrl := "https://upload.example.com/session/c1",
    totalBytes := 26214400, uploadId := "upload_c1",
    studentGroup := "tvm24", date := "2025-01-10" }

def c1Init : LoopState :=
  { bytesUploaded := 0, lastEmittedPercent := -1, lastEmitTime := 0,
    progress := { uploadId := "upload_c1", filename := "tvm24 - 2025-01-10.mp4",
                  videoPath := "videos/tvm24 - 2025-01-10.mp4", bytesUploaded := 0,
                  bytesTotal := 26214400, percent := 0, status := .uploading },
    disk := some { videoPath := "videos/tvm24 - 2025-01-10.mp4",
                   uploadSessionUrl := "https://upload.example.com/session/c1",
                   bytesUploaded := 0, bytesTotal := 26214400, studentGroup := "tvm24",
                   date := "2025-01-10", interruptedAt := 1000 },
    issued := [], headers := [], events := [], markedUploaded := false }

/-- Witness for C1 at the spec's example: a 26,214,400-byte resource
produces exactly the 5 chunk ranges below, the final header being
`bytes 20971520-26214399/26214400`. -/
theorem upload_chunks_tile_and_complete_witness :
    (c1Init.bytesUploaded = 0 ∧ c1Init.issued = [] ∧ c1Init.headers = [] ∧
     0 < c1Ctx.totalBytes) ∧
    (∃ st', runLoop c1Ctx (happySteps c1Ctx.totalBytes 0 2000) c1Init = (st', .completed) ∧
      st'.issued = chunkList c1Ctx.totalBytes 0 ∧
      st'.issued.length = (c1Ctx.totalBytes + CHUNK_SIZE - 1) / CHUNK_SIZE ∧
      Tiles 0 c1Ctx.totalBytes st'.issued ∧
      (∀ p ∈ st'.issued, p.2 = min (p.1 + CHUNK_SIZE) c1Ctx.totalBytes) ∧
      st'.headers = st'.issued.map (fun p => contentRange p.1 p.2 c1Ctx.totalBytes) ∧
      st'.progress.status = .complete ∧ st'.progress.percent = 100 ∧
      st'.progress.bytesUploaded = c1Ctx.totalBytes ∧ st'.disk = none) ∧
    chunkList 26214400 0 =
      [(0, 5242880), (5242880, 10485760), (10485760, 15728640),
       (15728640, 20971520), (20971520, 26214400)] ∧
    (26214400 + CHUNK_SIZE - 1) / CHUNK_SIZE = 5 ∧
    contentRange 20971520 26214400 26214400 = "bytes 20971520-26214399/26214400" :=
  ⟨⟨rfl, rfl, rfl, by decide⟩,
   upload_chunks_tile_and_complete c1Ctx 2000 c1Init rfl rfl rfl (by decide),
   by decide, by decide, by decide⟩

def c2Record : InterruptedUpload :=
  { videoPath := "videos/tvm24 - 2025-01-10.mp4",
    uploadSessionUrl := "https://upload.example.com/session/1",
    bytesUploaded := 5242880, bytesTotal := 26214400,
    studentGroup := "tvm24", date := "2025-01-10", interruptedAt := 2000 }

/-- A server state in which an upload for `videos/tvm24 - 2025-01-10.mp4`
is already active: a transfer loop is running, its progress entry has
status `uploading`, and a session record is persisted. -/
def c2State : ServerState :=
  { uploadProgress :=
      [("upload_1",
        { uploadId := "upload_1", filename := "tvm24 - 2025-01-10.mp4",
          videoPath := "videos/tvm24 - 2025-01-10.mp4", bytesUploaded := 5242880,
          bytesTotal := 26214400, percent := 20, status := .uploading })],
    interrupted := [("videos/tvm24 - 2025-01-10.mp4", c2Record)],
    cancelledUploads := [], activeLoops := ["videos/tvm24 - 2025-01-10.mp4"] }

def c2Req : UploadRequestEnv :=
  { videoPath := some "videos/tvm24 - 2025-01-10.mp4", date := some "2025-01-10",
    uploadId := none, freshId := "upload_2", fileExists := true,
    groupFromFilename := some "tvm24", credsConfigured := true, tokenOk := true,
    folderId := some "folder-tvm24", initLocation := some "https://upload.example.com/session/2",
    totalBytes := 26214400, now := 60000 }

/-- Counterexample to C2 as stated: with a transfer loop for the same
videoPath already active (`c2State`), a second `POST /api/upload` is *not*
rejected — it succeeds with a fresh uploadId and starts a second
concurrent transfer loop for the same resource. -/
theorem second_upload_not_rejected_cex :
    (handleUpload c2State c2Req).1 = ApiResp.ok "upload_2" ∧
    (handleUpload c2State c2Req).2.activeLoops =
      ["videos/tvm24 - 2025-01-10.mp4", "videos/tvm24 - 2025-01-10.mp4"] :=
  ⟨rfl, rfl⟩

/-- C2 amended: `POST /api/upload` performs no per-resource
active-upload check at all — for any server state, a request that passes
the parameter, file, group, credential and folder checks is accepted and
appends one more transfer loop for its videoPath, regardless of any
already-active loop or progress entry for that same path. -/
theorem second_upload_starts_new_loop (st : ServerState) (r : UploadRequestEnv)
    (vp d : String) (hvp : r.videoPath = some vp) (hd : r.date = some d)
    (hex : r.fileExists = true) (g : String) (hg : r.groupFromFilename = some g)
    (hc : r.credsConfigured = true) (ht : r.tokenOk = true)
    (f : String) (hf : r.folderId = some f)
    (u : String) (hl : r.initLocation = some u) :
    (handleUpload st r).1 = ApiResp.ok (r.uploadId.getD r.freshId) ∧
    (handleUpload st r).2.activeLoops = st.activeLoops ++ [vp] := by
  unfold handleUpload
  rw [hvp, hd, hg, hf, hl]
  simp [hex, hc, ht]

/-- Witness for C2's amended statement at the concrete state `c2State`:
the second request is accepted and a second loop for the same path runs. -/
theorem second_upload_starts_new_loop_witness :
    (handleUpload c2State c2Req).1 = ApiResp.ok (c2Req.uploadId.getD c2Req.freshId) ∧
    (handleUpload c2State c2Req).2.activeLoops =
      c2State.activeLoops ++ ["videos/tvm24 - 2025-01-10.mp4"] :=
  second_upload_starts_new_loop c2State c2Req "videos/tvm24 - 2025-01-10.mp4" "2025-01-10"
    rfl rfl rfl "tvm24" rfl rfl rfl "folder-tvm24" rfl
    "https://upload.example.com/session/2" rfl

def c3Record : InterruptedUpload :=
  { videoPath := "videos/ta23 - 2025-02-01.mp4",
    uploadSessionUrl := "https://upload.example.com/session/3",
    bytesUploaded := 10485760, bytesTotal := 26214400,
    studentGroup := "ta23", date := "2025-02-01", interruptedAt := 3000 }

def c3State : ServerState :=
  { uploadProgress := [], interrupted := [("videos/ta23 - 2025-02-01.mp4", c3Record)],
    cancelledUploads := [], activeLoops := [] }

def c3Req : ResumeRequestEnv :=
  { videoPath := some "videos/ta23 - 2025-02-01.mp4", uploadId := none,
    freshId := "upload_r1", credsConfigured := true, tokenOk := true,
    probeStatus := 500, probeRange := none }

/-- Counterexample to C3 as stated: a resume whose status probe answers
500 (outside {200, 201, 308, 404, 410}) is *not* failed as a retryable
error — the handler continues the upload from the locally persisted
`bytesUploaded` snapshot (10485760) and starts the transfer loop. -/
theorem resume_stale_offset_on_unknown_status_cex :
    (handleResume c3State c3Req).1 = ApiResp.okResume "upload_r1" 10485760 ∧
    (handleResume c3State c3Req).2.activeLoops = ["videos/ta23 - 2025-02-01.mp4"] :=
  ⟨rfl, rfl⟩

/-- C3 amended: the resume offset equals the remote-confirmed offset only
when the probe answers 308 with a parsable `Range` header (`n + 1` for
`bytes=0-n`); on 308 *without* a `Range` header, and on any probe status
outside {200, 201, 308, 404, 410}, the handler continues the transfer
loop from the locally persisted `bytesUploaded` snapshot — no
retryable-error rejection occurs. -/
theorem resume_offset_reconciliation (st : ServerState) (r : ResumeRequestEnv)
    (vp : String) (u : InterruptedUpload)
    (hvp : r.videoPath = some vp) (hu : alookup vp st.interrupted = some u)
    (hc : r.credsConfigured = true) (ht : r.tokenOk = true)
    (hterm : r.probeStatus ≠ 200 ∧ r.probeStatus ≠ 201 ∧
      r.probeStatus ≠ 404 ∧ r.probeStatus ≠ 410) :
    (∀ n, r.probeStatus = 308 → r.probeRange = some n →
      (handleResume st r).1 = ApiResp.okResume (r.uploadId.getD r.freshId) (n + 1)) ∧
    ((r.probeStatus ≠ 308 ∨ r.probeRange = none) →
      (handleResume st r).1 = ApiResp.okResume (r.uploadId.getD r.freshId) u.bytesUploaded) ∧
    (handleResume st r).2.activeLoops = st.activeLoops ++ [vp] := by
  obtain ⟨h200, h201, h404, h410⟩ := hterm
  refine ⟨?_, ?_, ?_⟩
  · intro n h308 hrange
    simp [handleResume, hvp, hu, hc, ht, h200, h201, h404, h410, h308, hrange]
  · intro hloc
    rcases hloc with h308 | hrange
    · simp [handleResume, hvp, hu, hc, ht, h200, h201, h404, h410, h308]
    · by_cases h308 : r.probeStatus = 308
      · simp [handleResume, hvp, hu, hc, ht, h200, h201, h404, h410, h308, hrange]
      · simp [handleResume, hvp, hu, hc, ht, h200, h201, h404, h410, h308]
  · simp [handleResume, hvp, hu, hc, ht, h200, h201, h404, h410]

/-- Witness for C3's amended statement at the concrete inputs of the
counterexample (probe status 500): resume continues from the local
10485760 snapshot. -/
theorem resume_offset_reconciliation_witness :
    (∀ n, c3Req.probeStatus = 308 → c3Req.probeRange = some n →
      (handleResume c3State c3Req).1 =
        ApiResp.okResume (c3Req.uploadId.getD c3Req.freshId) (n + 1)) ∧
    ((c3Req.probeStatus ≠ 308 ∨ c3Req.probeRange = none) →
      (handleResume c3State c3Req).1 =
        ApiResp.okResume (c3Req.uploadId.getD c3Req.freshId) c3Record.bytesUploaded) ∧
    (handleResume c3State c3Req).2.activeLoops =
      c3State.activeLoops ++ ["videos/ta23 - 2025-02-01.mp4"] :=
  resume_offset_reconciliation c3State c3Req "videos/ta23 - 2025-02-01.mp4" c3Record
    rfl rfl rfl rfl (by decide)

def c4Record : InterruptedUpload :=
  { videoPath := "videos/tvm24 - 2025-02-20.mp4",
    uploadSessionUrl := "https://upload.example.com/session/4",
    bytesUploaded := 15728640, bytesTotal := 26214400,
    studentGroup := "tvm24", date := "2025-02-20", interruptedAt := 4000 }

def c4State : ServerState :=
  { uploadProgress := [], interrupted := [("videos/tvm24 - 2025-02-20.mp4", c4Record)],
    cancelledUploads := [], activeLoops := [] }

def c4Req : ResumeRequestEnv :=
  { videoPath := some "videos/tvm24 - 2025-02-20.mp4", uploadId := none,
    freshId := "upload_r4", credsConfigured := true, tokenOk := true,
    probeStatus := 404, probeRange := none }

def c4Req2 : ResumeRequestEnv :=
  { videoPath := some "videos/tvm24 - 2025-02-20.mp4", uploadId := none,
    freshId := "upload_r5", credsConfigured := true, tokenOk := true,
    probeStatus := 308, probeRange := some 15728639 }

/-- C4: when the resume probe answers 404 or 410, the handler fails with
the distinct session-expired response (HTTP 410 payload carrying
`sessionExpired: true`), deletes the persisted session for that resource,
and a subsequent resume for the same resource fails with
"No interrupted upload found for this video". -/
theorem resume_expired_session (st : ServerState) (r r2 : ResumeRequestEnv)
    (vp : String) (u : InterruptedUpload)
    (hvp : r.videoPath = some vp) (hu : alookup vp st.interrupted = some u)
    (hc : r.credsConfigured = true) (ht : r.tokenOk = true)
    (hexp : r.probeStatus = 404 ∨ r.probeStatus = 410)
    (hvp2 : r2.videoPath = some vp) :
    (handleResume st r).1 = ApiResp.sessionExpired
      "Upload session expired. Google Drive resumable upload sessions expire after ~7 days. Please start a new upload." ∧
    alookup vp (handleResume st r).2.interrupted = none ∧
    (handleResume (handleResume st r).2 r2).1 =
      ApiResp.notFound "No interrupted upload found for this video" := by
  have hres : handleResume st r = (ApiResp.sessionExpired
      "Upload session expired. Google Drive resumable upload sessions expire after ~7 days. Please start a new upload.",
      { st with
        uploadProgress := aset (r.uploadId.getD r.freshId)
          { uploadId := r.uploadId.getD r.freshId, filename := basename vp,
            videoPath := vp, bytesUploaded := u.bytesUploaded,
            bytesTotal := u.bytesTotal,
            percent := jsPercent u.bytesUploaded u.bytesTotal, status := .uploading }
          st.uploadProgress
        interrupted := aerase vp st.interrupted }) := by
    simp [handleResume, hvp, hu, hc, ht, hexp]
  rw [hres]
  refine ⟨rfl, alookup_aerase_self vp st.interrupted, ?_⟩
  simp [handleResume, hvp2, alookup_aerase_self]

/-- Witness for C4 at concrete inputs: probe 404 on `c4State`, then a
second resume attempt for the same resource. -/
theorem resume_expired_session_witness :
    (handleResume c4State c4Req).1 = ApiResp.sessionExpired
      "Upload session expired. Google Drive resumable upload sessions expire after ~7 days. Please start a new upload." ∧
    alookup "videos/tvm24 - 2025-02-20.mp4" (handleResume c4State c4Req).2.interrupted = none ∧
    (handleResume (handleResume c4State c4Req).2 c4Req2).1 =
      ApiResp.notFound "No interrupted upload found for this video" :=
  resume_expired_session c4State c4Req c4Req2 "videos/tvm24 - 2025-02-20.mp4" c4Record
    rfl rfl rfl rfl (Or.inl rfl) rfl

/-- C8: on a metadata-cache miss, a failing timestamp extraction — all
candidate frames unparsable, missing video dimensions, or a thrown
subprocess error — yields a partial `videoData` that preserves the
already-computed classification (`isTimebolted`, `detectionMethod`)
alongside a null `recordingTime` instead of aborting the pipeline; the
negative result is still written to the metadata cache under the current
fingerprint, so a repeat call is a cache hit returning the same data with
no recomputation. -/
theorem timestamp_failure_partial_result_cached
    (metaCache : List (String × MetadataEntry)) (tbCache : TimeboltCache)
    (tsCache : TimestampCache) (videoPath : String) (h : String)
    (man nameFlag sil : Bool) (tsRun : TimestampRun) (sz : Option Nat)
    (hmiss : ∀ e, alookup videoPath metaCache = some e → e.hash ≠ h)
    (htsmiss : ∀ e, alookup videoPath tsCache.results = some e → e.hash ≠ h)
    (hfail : tsRun = .noValidTimestamp ∨ tsRun = .dimensionFailure ∨ tsRun = .fatalError) :
    let a := (analyzeVideo man nameFlag tbCache videoPath (some h) sil).1
    let out := videoMetadataCompute metaCache tbCache tsCache videoPath (some h)
      man nameFlag sil tsRun sz
    out.data.isTimebolted = a.isTimebolted ∧
    out.data.detectionMethod = a.detectionMethod ∧
    out.data.recordingTime = none ∧
    alookup videoPath out.metaCache = some { hash := h, data := out.data } ∧
    (videoMetadataCompute out.metaCache out.tbCache out.tsCache videoPath (some h)
      man nameFlag sil tsRun sz).recomputed = false ∧
    (videoMetadataCompute out.metaCache out.tbCache out.tsCache videoPath (some h)
      man nameFlag sil tsRun sz).data = out.data := by
  intro a out
  have hts1 : (extractTimestampFromVideo tsCache videoPath (some h) tsRun).1 = none := by
    unfold extractTimestampFromVideo
    cases halo2 : alookup videoPath tsCache.results with
    | none =>
      rcases hfail with hf | hf | hf <;> subst hf <;> simp [extractTimestampBody]
    | some e =>
      have hne := htsmiss e halo2
      rcases hfail with hf | hf | hf <;> subst hf <;> simp [hne, extractTimestampBody]
  have hout : out =
      { data := { isTimebolted := a.isTimebolted, detectionMethod := a.detectionMethod,
                  recordingTime := none, endTimestamp := "", duration := "",
                  fileSizeBytes := sz },
        metaCache := aset videoPath
          { hash := h,
            data := { isTimebolted := a.isTimebolted, detectionMethod := a.detectionMethod,
                      recordingTime := none, endTimestamp := "", duration := "",
                      fileSizeBytes := sz } } metaCache,
        tbCache := (analyzeVideo man nameFlag tbCache videoPath (some h) sil).2.1,
        tsCache := (extractTimestampFromVideo tsCache videoPath (some h) tsRun).2,
        recomputed := true } := by
    unfold_let out a
    unfold videoMetadataCompute
    cases halo : alookup videoPath metaCache with
    | none => simp [hts1]
    | some e => simp [hmiss e halo, hts1]
  refine ⟨?_, ?_, ?_, ?_, ?_, ?_⟩
  · rw [hout]
  · rw [hout]
  · rw [hout]
  · rw [hout]
    exact alookup_aset_self _ _ _
  · rw [hout]
    unfold videoMetadataCompute
    simp [alookup_aset_self]
  · rw [hout]
    unfold videoMetadataCompute
    simp [alookup_aset_self]

/-- Witness for C8 at concrete inputs: empty caches, a
missing-dimensions extraction failure, fingerprint `f1`. -/
theorem timestamp_failure_partial_result_cached_witness :
    let a := (analyzeVideo false false { results := [] } "v" (some "f1") true).1
    let out := videoMetadataCompute [] { results := [] } { results := [] } "v" (some "f1")
      false false true .dimensionFailure (some 1000)
    out.data.isTimebolted = a.isTimebolted ∧
    out.data.detectionMethod = a.detectionMethod ∧
    out.data.recordingTime = none ∧
    alookup "v" out.metaCache = some { hash := "f1", data := out.data } ∧
    (videoMetadataCompute out.metaCache out.tbCache out.tsCache "v" (some "f1")
      false false true .dimensionFailure (some 1000)).recomputed = false ∧
    (videoMetadataCompute out.metaCache out.tbCache out.tsCache "v" (some "f1")
      false false true .dimensionFailure (some 1000)).data = out.data :=
  timestamp_failure_partial_result_cached [] { results := [] } { results := [] } "v" "f1"
    false false true .dimensionFailure (some 1000)
    (by intro e he; simp [alookup] at he)
    (by intro e he; simp [alookup] at he)
    (Or.inr (Or.inl rfl))

/-! ## C9: pause and the persisted snapshot

Two concrete 5-chunk runs of the transfer loop: chunks 1 and 2 are
accepted with 308, then a pause request is observed at the loop top.  In
`c9StepsSpaced` the two chunks arrive 1.5 s apart, so the throttle saves
after each; in `c9StepsBurst` chunk 2 arrives 0.4 s after chunk 1, inside
the 1 s throttle window, so its progress is never persisted. -/

def c9Ctx : UploadCtx :=
  { videoPath := "videos/tvm24 - 2025-03-05.mp4",
    uploadUrl := "https://upload.example.com/session/9",
    totalBytes := 26214400, uploadId := "upload_9",
    studentGroup := "tvm24", date := "2025-03-05" }

def c9Init : LoopState :=
  { bytesUploaded := 0, lastEmittedPercent := -1, lastEmitTime := 0,
    progress := { uploadId := "upload_9", filename := "tvm24 - 2025-03-05.mp4",
                  videoPath := "videos/tvm24 - 2025-03-05.mp4", bytesUploaded := 0,
                  bytesTotal := 26214400, percent := 0, status := .uploading },
    disk := some { videoPath := "videos/tvm24 - 2025-03-05.mp4",
                   uploadSessionUrl := "https://upload.example.com/session/9",
                   bytesUploaded := 0, bytesTotal := 26214400, studentGroup := "tvm24",
                   date := "2025-03-05", interruptedAt := 9000 },
    issued := [], headers := [], events := [], markedUploaded := false }

def c9StepsSpaced : List LoopStep :=
  [ { pauseFlag := false, outcome := .accepted 308 10000 },
    { pauseFlag := false, outcome := .accepted 308 11500 },
    { pauseFlag := true, outcome := .aborted } ]

def c9StepsBurst : List LoopStep :=
  [ { pauseFlag := false, outcome := .accepted 308 10000 },
    { pauseFlag := false, outcome := .accepted 308 10400 },
    { pauseFlag := true, outcome := .aborted } ]

/-- Counterexample to C9 as stated: pausing after 2 fully accepted chunks
(10,485,760 bytes) whose second acceptance fell inside the 1 s persistence
throttle leaves the retained on-disk record at the *last throttled
checkpoint* `bytesUploaded = 5242880`, not at the accepted byte count
10485760 — and the persisted `InterruptedUpload` record carries no status
field at all; `"paused"` exists only in the in-memory progress entry. -/
theorem pause_throttled_snapshot_cex :
    (runLoop c9Ctx c9StepsBurst c9Init).2 = LoopResult.paused ∧
    (runLoop c9Ctx c9StepsBurst c9Init).1.bytesUploaded = 10485760 ∧
    ((runLoop c9Ctx c9StepsBurst c9Init).1.disk.map InterruptedUpload.bytesUploaded) =
      some 5242880 ∧
    ¬ ((runLoop c9Ctx c9StepsBurst c9Init).1.disk.map InterruptedUpload.bytesUploaded =
      some 10485760) := by
  decide

/-- C9 amended: after a pause following N fully accepted chunks the
persisted record is retained on disk (not deleted) with `bytesUploaded`
equal to the last throttled checkpoint — which equals the accepted byte
count (10485760 after chunk 2 of 5) whenever each accepted chunk
triggered a save, as in the spec's example timing — while the paused
status is recorded in the in-memory progress entry (`status = paused`,
final event emitted), not as a field of the on-disk record. -/
theorem pause_retains_session_with_checkpoint :
    (runLoop c9Ctx c9StepsSpaced c9Init).2 = LoopResult.paused ∧
    (runLoop c9Ctx c9StepsSpaced c9Init).1.disk =
      some { videoPath := "videos/tvm24 - 2025-03-05.mp4",
             uploadSessionUrl := "https://upload.example.com/session/9",
             bytesUploaded := 10485760, bytesTotal := 26214400,
             studentGroup := "tvm24", date := "2025-03-05", interruptedAt := 11500 } ∧
    (runLoop c9Ctx c9StepsSpaced c9Init).1.bytesUploaded = 10485760 ∧
    (runLoop c9Ctx c9StepsSpaced c9Init).1.progress.status = UStatus.paused ∧
    (runLoop c9Ctx c9StepsSpaced c9Init).1.issued =
      [(0, 5242880), (5242880, 10485760)] := by
  decide

end Dashboard
